import Mathlib

/-
  Verification of the Evaluation Normalizer of the pitrain repository.

  The embedded code is `validateEvaluationResult` and `calculateKPIScores`
  from src/services/TranscriptionService.js (class EvaluationService).
  JavaScript numbers are modelled as exact rationals; the JavaScript value
  NaN (which arises from the 0/0 of averaging an empty category object) is
  modelled by the `none` case of `Option Rat`.  A thrown TypeError is
  modelled by the error case of `Except JSError`.
-/

namespace Pitrain

/-! ### Definitions: the embedded data model and operations -/

/-- A loosely typed JavaScript value, for the fields the normalizer treats
generically (word_count, summary, proposal fields).  `nan` is the numeric
NaN value; `num` covers the remaining (finite) numbers. -/
inductive JVal where
  | undef
  | null
  | bool (b : Bool)
  | num (q : ℚ)
  | nan
  | str (s : String)
deriving DecidableEq

/-- JavaScript truthiness test: undefined, null, false, 0, NaN and the
empty string are falsy, everything else is truthy. -/
def JVal.falsy : JVal → Bool
  | .undef => true
  | .null => true
  | .bool b => !b
  | .num q => decide (q = 0)
  | .nan => true
  | .str s => decide (s = "")

/-- The JavaScript expression `a || b`: the right operand when the left is
falsy, otherwise the left operand. -/
def jsOr (a b : JVal) : JVal := if a.falsy then b else a

/-- A value stored under a category key of `result.kpis`: either the JSON
null value (on which `Object.values` throws) or an object mapping
sub-criterion names to numbers. -/
inductive CatVal where
  | null
  | obj (fields : List (String × ℚ))
deriving DecidableEq

/-- An entry of the `result.proposals` array: either null (property access
throws) or an object with the four fields the code reads. -/
inductive RawProposalEntry where
  | null
  | obj (type title description priority : JVal)
deriving DecidableEq

/-- The value of a truthy `result.proposals` field: an array, or some
truthy non-array value on which `.slice(0,3).map(...)` throws. -/
inductive ProposalsVal where
  | notArray
  | arr (entries : List RawProposalEntry)
deriving DecidableEq

/-- The untrusted argument of `validateEvaluationResult`, object-shaped.
`kpis = none` models a falsy (absent, null, 0, empty-string) kpis field,
for which the code substitutes the empty object; a truthy kpis object is a
key/value list.  `proposals = none` likewise models a falsy proposals
field. -/
structure RawEvaluation where
  kpis : Option (List (String × CatVal))
  proposals : Option ProposalsVal
  word_count : JVal
  summary : JVal
deriving DecidableEq

/-- A normalized proposal as built by the code (fields are JVal because
truthy non-string field values pass through unchanged). -/
structure Proposal where
  type : JVal
  title : JVal
  description : JVal
  priority : JVal
deriving DecidableEq

/-- The returned normalized evaluation.  `overall_score = none` models the
NaN produced when a present category object is empty. -/
structure NormalizedEvaluation where
  kpis : List (String × CatVal)
  proposals : List Proposal
  overall_score : Option ℚ
  word_count : JVal
  summary : JVal
deriving DecidableEq

/-- A thrown JavaScript TypeError. -/
inductive JSError where
  | typeError (msg : String)
deriving DecidableEq

/-- The fixed rubric: the 4 categories and the sub-criterion names of the
`defaultKpis` object in the source. -/
def ctaSubs : List String :=
  ["specific_referral_ask", "contact_method_clarity",
   "target_client_definition", "actionable_request"]

def stSubs : List String :=
  ["introduction_completeness", "word_count_optimization",
   "clear_flow_organization", "time_management"]

def ccSubs : List String :=
  ["jargon_free_language", "single_focus_maintenance",
   "benefit_articulation", "credibility_markers"]

def memSubs : List String :=
  ["hook_tagline_presence", "unique_element", "concrete_examples"]

def rubric : List (String × List String) :=
  [("call_to_action", ctaSubs), ("structure_time", stSubs),
   ("content_clarity", ccSubs), ("memorability", memSubs)]

def rubricNames : List String := rubric.map Prod.fst

/-- A category object with every given sub-criterion set to 0. -/
def zeroCat (subs : List String) : CatVal :=
  .obj (subs.map fun s => (s, (0 : ℚ)))

/-- The `defaultKpis` constant of the source. -/
def defaultKpis : List (String × CatVal) :=
  rubric.map fun p => (p.1, zeroCat p.2)

/-- The default category object of a rubric category name. -/
def defaultCat (c : String) : CatVal := ((rubric.lookup c).map zeroCat).getD (.obj [])

/-- The `weights` constant of the source, in its iteration order. -/
def weights : List (String × ℚ) :=
  [("call_to_action", 2/5), ("structure_time", 1/4),
   ("content_clarity", 1/5), ("memorability", 3/20)]

/-- JavaScript object spread `{...base, ...incoming}`: the keys of `base`
in order with values overridden by `incoming` where present, followed by
the keys of `incoming` that are new. -/
def spreadMerge (base incoming : List (String × CatVal)) : List (String × CatVal) :=
  (base.map fun p => (p.1, ((incoming.lookup p.1).getD p.2))) ++
    incoming.filter fun p => (base.lookup p.1).isNone

/-- The line `const kpis = { ...defaultKpis, ...(result.kpis || {}) }`. -/
def mergedKpis (result : RawEvaluation) : List (String × CatVal) :=
  spreadMerge defaultKpis (result.kpis.getD [])

/-- The expression `scores.reduce((sum, s) => sum + s, 0) / scores.length`: the empty list
gives 0/0 = NaN, modelled as `none`. -/
def jsMean (xs : List ℚ) : Option ℚ :=
  if xs = [] then none else some (xs.sum / (xs.length : ℚ))

/-- The read `Object.values(kpis[category])`: throws on null (and on a category that
is absent altogether, which cannot happen after the merge). -/
def categoryValues (kpis : List (String × CatVal)) (c : String) :
    Except JSError (List ℚ) :=
  match kpis.lookup c with
  | some (.obj fs) => .ok (fs.map Prod.snd)
  | some .null => .error (.typeError "Object.values called on null")
  | none => .error (.typeError "Object.values called on undefined")

/-- NaN-propagating `mean * weight + acc`. -/
def nMulAdd (w : ℚ) (m acc : Option ℚ) : Option ℚ :=
  match m, acc with
  | some x, some y => some (x * w + y)
  | _, _ => none

/-- The loop `for (const [category, weight] of Object.entries(weights))`
accumulating `categoryAvg * weight` into `overallScore`. -/
def sumTerms (kpis : List (String × CatVal)) :
    List (String × ℚ) → Except JSError (Option ℚ)
  | [] => .ok (some 0)
  | cw :: rest =>
    match categoryValues kpis cw.1 with
    | .error e => .error e
    | .ok vs =>
      match sumTerms kpis rest with
      | .error e => .error e
      | .ok acc => .ok (nMulAdd cw.2 (jsMean vs) acc)

/-- JavaScript `Math.round`: round half toward positive infinity. -/
def jsRound (q : ℚ) : ℤ := ⌊q + 1/2⌋

/-- The expression `Math.round(x * 10) / 10`: round to one decimal place. -/
def jsRound1 (q : ℚ) : ℚ := ((jsRound (q * 10) : ℚ)) / 10

/-- One-decimal rounding lifted over NaN (`Math.round(NaN)` is NaN). -/
def nRound1 (o : Option ℚ) : Option ℚ := o.map jsRound1

/-- The body of the proposal-mapping callback applied to the four fields
of a (non-null) entry. -/
def normalizeProposalFields (t ti d p : JVal) : Proposal :=
  { type := jsOr t (.str "GENERAL_IMPROVEMENT"),
    title := jsOr ti (.str "Verbesserung"),
    description := jsOr d (.str "Siehe Bewertungsdetails"),
    priority :=
      if p = .str "HIGH" ∨ p = .str "MEDIUM" ∨ p = .str "LOW" then p
      else .str "MEDIUM" }

/-- The proposal-mapping callback: property access on a null entry throws. -/
def normalizeProposal : RawProposalEntry → Except JSError Proposal
  | .null => .error (.typeError "Cannot read properties of null")
  | .obj t ti d p => .ok (normalizeProposalFields t ti d p)

/-- The call `.map(proposal => ...)` over the sliced entries, stopping at the first
thrown error. -/
def normalizeEntries : List RawProposalEntry → Except JSError (List Proposal)
  | [] => .ok []
  | e :: rest =>
    match normalizeProposal e with
    | .error err => .error err
    | .ok p =>
      match normalizeEntries rest with
      | .error err => .error err
      | .ok ps => .ok (p :: ps)

/-- The line `(result.proposals || []).slice(0, 3).map(...)`: a falsy proposals
field becomes the empty array; a truthy non-array throws. -/
def normalizeProposals : Option ProposalsVal → Except JSError (List Proposal)
  | none => .ok []
  | some .notArray => .error (.typeError "slice is not a function")
  | some (.arr es) => normalizeEntries (es.take 3)

/-- The pure per-entry normalization; the null branch is never reached on
a run of the code that returns (a null entry throws instead). -/
def normEntry : RawProposalEntry → Proposal
  | .null => normalizeProposalFields .undef .undef .undef .undef
  | .obj t ti d p => normalizeProposalFields t ti d p

/-- The function `validateEvaluationResult(result)` of
src/services/TranscriptionService.js, for an object-shaped argument. -/
def validateEvaluationResult (result : RawEvaluation) :
    Except JSError NormalizedEvaluation :=
  match sumTerms (mergedKpis result) weights with
  | .error e => .error e
  | .ok overall =>
    match normalizeProposals result.proposals with
    | .error e => .error e
    | .ok props =>
      .ok { kpis := mergedKpis result,
            proposals := props,
            overall_score := nRound1 overall,
            word_count := jsOr result.word_count (.num 0),
            summary := jsOr result.summary (.str "Bewertung abgeschlossen") }

/-- An object with every field absent; a primitive receiver of the
property reads behaves exactly like this object. -/
def emptyRaw : RawEvaluation :=
  { kpis := none, proposals := none, word_count := .undef, summary := .undef }

/-- A primitive (non-null, non-undefined, non-object) JavaScript value. -/
inductive Prim where
  | num (q : ℚ)
  | nan
  | str (s : String)
  | bool (b : Bool)
deriving DecidableEq

/-- An arbitrary top-level argument of `validateEvaluationResult`. -/
inductive TopVal where
  | null
  | undef
  | prim (p : Prim)
  | obj (r : RawEvaluation)
deriving DecidableEq

/-- The member call `validateEvaluationResult` applied to an arbitrary top-level value:
property access on null or undefined throws a TypeError; property access
on a primitive yields undefined for every field, so a primitive argument
is processed exactly like the empty object. -/
def validateTop : TopVal → Except JSError NormalizedEvaluation
  | .null => .error (.typeError "Cannot read properties of null")
  | .undef => .error (.typeError "Cannot read properties of undefined")
  | .prim _ => validateEvaluationResult emptyRaw
  | .obj r => validateEvaluationResult r

/-- Whether a run of the normalizer returned (no throw). -/
def isOkE (e : Except JSError NormalizedEvaluation) : Bool :=
  match e with
  | .ok _ => true
  | .error _ => false

/-- The function `calculateKPIScores(kpis)` of src/services/TranscriptionService.js:
per-category `Math.round` of the mean of the values, NaN (none) for an
empty category object, a throw on a null category value. -/
def calculateKPIScores : List (String × CatVal) →
    Except JSError (List (String × Option ℤ))
  | [] => .ok []
  | (c, v) :: rest =>
    match v with
    | .null => .error (.typeError "Object.values called on null")
    | .obj fs =>
      match calculateKPIScores rest with
      | .error e => .error e
      | .ok scores => .ok ((c, (jsMean (fs.map Prod.snd)).map jsRound) :: scores)

/-- Modelled from the spec: the rounding mode the specification names,
round half away from zero, stated for comparison with the rounding the
code performs (`jsRound`, half toward positive infinity). -/
def roundHalfAwayFromZero (q : ℚ) : ℤ :=
  if 0 ≤ q then ⌊q + 1/2⌋ else -⌊-q + 1/2⌋

/-- Modelled from the spec: one-decimal rounding using
round-half-away-from-zero. -/
def specRound1 (q : ℚ) : ℚ := ((roundHalfAwayFromZero (q * 10) : ℚ)) / 10

/-- The test vector of the spec: category sub-scores
(85,90,80,88)/(75,85,80,90)/(95,88,82,78)/(60,70,65). -/
def raw81 : RawEvaluation :=
  { kpis := some
      [("call_to_action", .obj
          [("specific_referral_ask", 85), ("contact_method_clarity", 90),
           ("target_client_definition", 80), ("actionable_request", 88)]),
       ("structure_time", .obj
          [("introduction_completeness", 75), ("word_count_optimization", 85),
           ("clear_flow_organization", 80), ("time_management", 90)]),
       ("content_clarity", .obj
          [("jargon_free_language", 95), ("single_focus_maintenance", 88),
           ("benefit_articulation", 82), ("credibility_markers", 78)]),
       ("memorability", .obj
          [("hook_tagline_presence", 60), ("unique_element", 70),
           ("concrete_examples", 65)])],
    proposals := none, word_count := .undef, summary := .undef }

/-- The normalization of `raw81`. -/
def n81 : NormalizedEvaluation :=
  { kpis :=
      [("call_to_action", .obj
          [("specific_referral_ask", 85), ("contact_method_clarity", 90),
           ("target_client_definition", 80), ("actionable_request", 88)]),
       ("structure_time", .obj
          [("introduction_completeness", 75), ("word_count_optimization", 85),
           ("clear_flow_organization", 80), ("time_management", 90)]),
       ("content_clarity", .obj
          [("jargon_free_language", 95), ("single_focus_maintenance", 88),
           ("benefit_articulation", 82), ("credibility_markers", 78)]),
       ("memorability", .obj
          [("hook_tagline_presence", 60), ("unique_element", 70),
           ("concrete_examples", 65)])],
    proposals := [],
    overall_score := some (409/5),
    word_count := .num 0,
    summary := .str "Bewertung abgeschlossen" }

/-- A raw input whose call_to_action category is present but carries only
one of the four rubric sub-criteria. -/
def raw1 : RawEvaluation :=
  { kpis := some [("call_to_action", .obj [("specific_referral_ask", 50)])],
    proposals := none, word_count := .undef, summary := .undef }

/-- The normalization of `raw1`: the supplied category replaces the
default wholesale, so three rubric sub-criteria are missing from it. -/
def n1 : NormalizedEvaluation :=
  { kpis :=
      [("call_to_action", .obj [("specific_referral_ask", 50)]),
       ("structure_time", zeroCat stSubs),
       ("content_clarity", zeroCat ccSubs),
       ("memorability", zeroCat memSubs)],
    proposals := [],
    overall_score := some 20,
    word_count := .num 0,
    summary := .str "Bewertung abgeschlossen" }

/-- An object-shaped raw input whose call_to_action category is the JSON
null value. -/
def rawNullCat : RawEvaluation :=
  { kpis := some [("call_to_action", .null)],
    proposals := none, word_count := .undef, summary := .undef }

/-- A raw input whose single supplied sub-criterion value is -1/2, putting
the exact weighted sum at -1/20. -/
def raw4 : RawEvaluation :=
  { kpis := some
      [("call_to_action", .obj
          [("specific_referral_ask", -(1/2)), ("contact_method_clarity", 0),
           ("target_client_definition", 0), ("actionable_request", 0)])],
    proposals := none, word_count := .undef, summary := .undef }

/-- The normalization of `raw4`: `Math.round(-0.5) = -0`, so the overall
score is 0 rather than the -0.1 of round-half-away-from-zero. -/
def n4 : NormalizedEvaluation :=
  { kpis :=
      [("call_to_action", .obj
          [("specific_referral_ask", -(1/2)), ("contact_method_clarity", 0),
           ("target_client_definition", 0), ("actionable_request", 0)]),
       ("structure_time", zeroCat stSubs),
       ("content_clarity", zeroCat ccSubs),
       ("memorability", zeroCat memSubs)],
    proposals := [],
    overall_score := some 0,
    word_count := .num 0,
    summary := .str "Bewertung abgeschlossen" }

/-- A raw input whose call_to_action category is present but empty. -/
def raw5 : RawEvaluation :=
  { kpis := some [("call_to_action", .obj [])],
    proposals := none, word_count := .undef, summary := .undef }

/-- The normalization of `raw5`: averaging the empty category divides by
zero, so overall_score is NaN (modelled as none). -/
def n5 : NormalizedEvaluation :=
  { kpis :=
      [("call_to_action", .obj []),
       ("structure_time", zeroCat stSubs),
       ("content_clarity", zeroCat ccSubs),
       ("memorability", zeroCat memSubs)],
    proposals := [],
    overall_score := none,
    word_count := .num 0,
    summary := .str "Bewertung abgeschlossen" }

/-- The normalization of the fully-absent input `emptyRaw`. -/
def n0 : NormalizedEvaluation :=
  { kpis := defaultKpis,
    proposals := [],
    overall_score := some 0,
    word_count := .num 0,
    summary := .str "Bewertung abgeschlossen" }

/-- Five proposal entries; the first has an invalid priority, the third
has no priority at all. -/
def ps7 : List RawProposalEntry :=
  [.obj (.str "TYPE1") (.str "Title1") (.str "Desc1") (.str "INVALID"),
   .obj (.str "TYPE2") (.str "Title2") (.str "Desc2") (.str "HIGH"),
   .obj (.str "TYPE3") (.str "Title3") (.str "Desc3") .undef,
   .obj (.str "TYPE4") (.str "Title4") (.str "Desc4") (.str "LOW"),
   .obj (.str "TYPE5") (.str "Title5") (.str "Desc5") (.str "MEDIUM")]

def raw7 : RawEvaluation :=
  { kpis := none, proposals := some (.arr ps7),
    word_count := .undef, summary := .undef }

/-- The normalization of `raw7`: exactly 3 proposals survive; the invalid
and the absent priority both become MEDIUM. -/
def n7 : NormalizedEvaluation :=
  { kpis := defaultKpis,
    proposals :=
      [{ type := .str "TYPE1", title := .str "Title1",
         description := .str "Desc1", priority := .str "MEDIUM" },
       { type := .str "TYPE2", title := .str "Title2",
         description := .str "Desc2", priority := .str "HIGH" },
       { type := .str "TYPE3", title := .str "Title3",
         description := .str "Desc3", priority := .str "MEDIUM" }],
    overall_score := some 0,
    word_count := .num 0,
    summary := .str "Bewertung abgeschlossen" }

/-- A raw input with a present numeric word_count and non-empty summary. -/
def raw8 : RawEvaluation :=
  { kpis := none, proposals := none,
    word_count := .num 105, summary := .str "Guter Pitch" }

def n8 : NormalizedEvaluation :=
  { kpis := defaultKpis,
    proposals := [],
    overall_score := some 0,
    word_count := .num 105,
    summary := .str "Guter Pitch" }

/-- A raw input whose word_count is NaN and whose summary is the empty
string: both present but falsy. -/
def raw9 : RawEvaluation :=
  { kpis := none, proposals := none,
    word_count := .nan, summary := .str "" }

def n9 : NormalizedEvaluation :=
  { kpis := defaultKpis,
    proposals := [],
    overall_score := some 0,
    word_count := .num 0,
    summary := .str "Bewertung abgeschlossen" }

/-- A raw input whose word_count is the truthy string "42". -/
def raw9b : RawEvaluation :=
  { kpis := none, proposals := none,
    word_count := .str "42", summary := .str "ok" }

def n9b : NormalizedEvaluation :=
  { kpis := defaultKpis,
    proposals := [],
    overall_score := some 0,
    word_count := .str "42",
    summary := .str "ok" }

/-- A kpis object as handed to `calculateKPIScores`, with one category of
two sub-scores averaging 87.5. -/
def kpis10 : List (String × CatVal) :=
  [("content_clarity", .obj
      [("jargon_free_language", 90), ("single_focus_maintenance", 85)])]

/-- Every one of the 4 rubric categories of a kpis object holds an object
carrying all the rubric sub-criteria of that category (the shape the spec
promises for the output). -/
def kpisCompleteB (kpis : List (String × CatVal)) : Bool :=
  rubric.all fun p =>
    match kpis.lookup p.1 with
    | some (.obj fs) => p.2.all fun s => (fs.lookup s).isSome
    | _ => false

/-- None of the 4 rubric categories of the raw kpis is the null value. -/
def noNullRubricB (raw : RawEvaluation) : Bool :=
  rubricNames.all fun c =>
    match (raw.kpis.getD []).lookup c with
    | some .null => false
    | _ => true

/-- The proposals field is absent, or an array whose first three entries
are all objects. -/
def proposalsOkB : Option ProposalsVal → Bool
  | none => true
  | some .notArray => false
  | some (.arr es) => (es.take 3).all fun e =>
      match e with
      | .null => false
      | .obj _ _ _ _ => true

/-- Each of the 4 rubric categories of the raw kpis, when present, is a
nonempty object whose values all lie in [0, 100]. -/
def rawKpisOkB (raw : RawEvaluation) : Bool :=
  rubricNames.all fun c =>
    match (raw.kpis.getD []).lookup c with
    | none => true
    | some .null => false
    | some (.obj fs) =>
        !(fs.isEmpty) && fs.all fun s => decide (0 ≤ s.2) && decide (s.2 ≤ 100)

/-- Every numeric sub-criterion value the caller supplied anywhere in the
kpis object lies in [0, 100]. -/
def rawValuesInRangeB (raw : RawEvaluation) : Bool :=
  (raw.kpis.getD []).all fun p =>
    match p.2 with
    | .null => true
    | .obj fs => fs.all fun s => decide (0 ≤ s.2) && decide (s.2 ≤ 100)

/-- Re-inject a normalized evaluation as a raw input (the JSON value the
normalizer would receive if fed its own output). -/
def toRaw (n : NormalizedEvaluation) : RawEvaluation :=
  { kpis := some n.kpis,
    proposals := some (.arr (n.proposals.map fun p =>
      .obj p.type p.title p.description p.priority)),
    word_count := n.word_count,
    summary := n.summary }

/-! ### Theorems -/

/-- The spec test vector normalizes with overall_score 409/5 = 81.8. -/
theorem raw81_eval : validateEvaluationResult raw81 = .ok n81 := by
  simp [validateEvaluationResult, mergedKpis, spreadMerge, defaultKpis, rubric,
    raw81, n81, sumTerms, categoryValues, weights, List.lookup, jsMean, nMulAdd,
    nRound1, jsRound1, jsRound, normalizeProposals, jsOr, JVal.falsy,
    zeroCat, ctaSubs, stSubs, ccSubs, memSubs]
  norm_num [Int.floor_eq_iff]

theorem raw1_eval : validateEvaluationResult raw1 = .ok n1 := by
  simp [validateEvaluationResult, mergedKpis, spreadMerge, defaultKpis, rubric,
    raw1, n1, sumTerms, categoryValues, weights, List.lookup, jsMean, nMulAdd,
    nRound1, jsRound1, jsRound, normalizeProposals, jsOr, JVal.falsy,
    zeroCat, ctaSubs, stSubs, ccSubs, memSubs]
  norm_num [Int.floor_eq_iff]

theorem raw4_eval : validateEvaluationResult raw4 = .ok n4 := by
  simp [validateEvaluationResult, mergedKpis, spreadMerge, defaultKpis, rubric,
    raw4, n4, sumTerms, categoryValues, weights, List.lookup, jsMean, nMulAdd,
    nRound1, jsRound1, jsRound, normalizeProposals, jsOr, JVal.falsy,
    zeroCat, ctaSubs, stSubs, ccSubs, memSubs]
  norm_num [Int.floor_eq_iff]

theorem raw5_eval : validateEvaluationResult raw5 = .ok n5 := by
  simp [validateEvaluationResult, mergedKpis, spreadMerge, defaultKpis, rubric,
    raw5, n5, sumTerms, categoryValues, weights, List.lookup, jsMean, nMulAdd,
    nRound1, jsRound1, jsRound, normalizeProposals, jsOr, JVal.falsy,
    zeroCat, ctaSubs, stSubs, ccSubs, memSubs]

theorem n0_eval : validateEvaluationResult emptyRaw = .ok n0 := by
  simp [validateEvaluationResult, mergedKpis, spreadMerge, defaultKpis, rubric,
    emptyRaw, n0, sumTerms, categoryValues, weights, List.lookup, jsMean, nMulAdd,
    nRound1, jsRound1, jsRound, normalizeProposals, jsOr, JVal.falsy,
    zeroCat, ctaSubs, stSubs, ccSubs, memSubs]
  norm_num [Int.floor_eq_iff]

theorem raw7_eval : validateEvaluationResult raw7 = .ok n7 := by
  simp [validateEvaluationResult, mergedKpis, spreadMerge, defaultKpis, rubric,
    raw7, n7, ps7, sumTerms, categoryValues, weights, List.lookup, jsMean,
    nMulAdd, nRound1, jsRound1, jsRound, normalizeProposals, normalizeEntries,
    normalizeProposal, normalizeProposalFields, jsOr, JVal.falsy,
    zeroCat, ctaSubs, stSubs, ccSubs, memSubs]
  norm_num [Int.floor_eq_iff]

theorem raw8_eval : validateEvaluationResult raw8 = .ok n8 := by
  simp [validateEvaluationResult, mergedKpis, spreadMerge, defaultKpis, rubric,
    raw8, n8, sumTerms, categoryValues, weights, List.lookup, jsMean, nMulAdd,
    nRound1, jsRound1, jsRound, normalizeProposals, jsOr, JVal.falsy,
    zeroCat, ctaSubs, stSubs, ccSubs, memSubs]
  norm_num [Int.floor_eq_iff]

theorem raw9_eval : validateEvaluationResult raw9 = .ok n9 := by
  simp [validateEvaluationResult, mergedKpis, spreadMerge, defaultKpis, rubric,
    raw9, n9, sumTerms, categoryValues, weights, List.lookup, jsMean, nMulAdd,
    nRound1, jsRound1, jsRound, normalizeProposals, jsOr, JVal.falsy,
    zeroCat, ctaSubs, stSubs, ccSubs, memSubs]
  norm_num [Int.floor_eq_iff]

theorem raw9b_eval : validateEvaluationResult raw9b = .ok n9b := by
  simp [validateEvaluationResult, mergedKpis, spreadMerge, defaultKpis, rubric,
    raw9b, n9b, sumTerms, categoryValues, weights, List.lookup, jsMean, nMulAdd,
    nRound1, jsRound1, jsRound, normalizeProposals, jsOr, JVal.falsy,
    zeroCat, ctaSubs, stSubs, ccSubs, memSubs]
  norm_num [Int.floor_eq_iff]

theorem kpis10_eval :
    calculateKPIScores kpis10 = .ok [("content_clarity", some 88)] := by
  simp [calculateKPIScores, kpis10, jsMean, jsRound]
  norm_num [Int.floor_eq_iff]

theorem lookup_map_keyed {α β : Type} (l : List (String × α)) (f : String → α → β)
    (c : String) :
    (l.map fun p => (p.1, f p.1 p.2)).lookup c = (l.lookup c).map (f c) := by
  induction l with
  | nil => rfl
  | cons hd tl ih =>
    obtain ⟨k, a⟩ := hd
    by_cases h : c = k
    · subst h
      simp [List.lookup]
    · have hb : (c == k) = false := by simp [h]
      simp [List.lookup, hb, ih]

theorem lookup_append_of_isSome {α : Type} {l1 : List (String × α)}
    (l2 : List (String × α)) {c : String} (h : (l1.lookup c).isSome) :
    (l1 ++ l2).lookup c = l1.lookup c := by
  induction l1 with
  | nil => simp [List.lookup] at h
  | cons hd tl ih =>
    obtain ⟨k, a⟩ := hd
    by_cases hc : c = k
    · subst hc
      simp [List.lookup]
    · have hb : (c == k) = false := by simp [hc]
      simp only [List.cons_append, List.lookup, hb] at h ⊢
      exact ih h

/-- The merge keeps every key of the base object and overrides its value
with the incoming one where present. -/
theorem spreadMerge_lookup_left (base incoming : List (String × CatVal))
    (c : String) (v : CatVal) (hb : base.lookup c = some v) :
    (spreadMerge base incoming).lookup c =
      some ((incoming.lookup c).getD v) := by
  unfold spreadMerge
  have hm := lookup_map_keyed base (fun k w => (incoming.lookup k).getD w) c
  rw [hb] at hm
  rw [lookup_append_of_isSome _ (by rw [hm]; rfl), hm]
  rfl

/-- Each rubric category of the merged kpis is present, and equals the
incoming category when the caller supplied one, the all-zero default
otherwise. -/
theorem mergedKpis_lookup (raw : RawEvaluation) (c : String)
    (hc : c ∈ rubricNames) :
    (mergedKpis raw).lookup c =
      some (((raw.kpis.getD []).lookup c).getD (defaultCat c)) := by
  have hc2 : c = "call_to_action" ∨ c = "structure_time" ∨
      c = "content_clarity" ∨ c = "memorability" := by
    simpa [rubricNames, rubric] using hc
  rcases hc2 with rfl | rfl | rfl | rfl <;>
    exact spreadMerge_lookup_left defaultKpis _ _ _ (by rfl)

/-- Inversion on a returning run of the normalizer: the intermediate
values exist and determine all the output fields. -/
theorem validate_ok_elim (raw : RawEvaluation) (n : NormalizedEvaluation)
    (h : validateEvaluationResult raw = .ok n) :
    ∃ ov props,
      sumTerms (mergedKpis raw) weights = .ok ov ∧
      normalizeProposals raw.proposals = .ok props ∧
      n = { kpis := mergedKpis raw, proposals := props,
            overall_score := nRound1 ov,
            word_count := jsOr raw.word_count (.num 0),
            summary := jsOr raw.summary (.str "Bewertung abgeschlossen") } := by
  unfold validateEvaluationResult at h
  cases hs : sumTerms (mergedKpis raw) weights with
  | error e => rw [hs] at h; exact absurd h (by simp)
  | ok ov =>
    rw [hs] at h
    cases hp : normalizeProposals raw.proposals with
    | error e => rw [hp] at h; exact absurd h (by simp)
    | ok props =>
      rw [hp] at h
      exact ⟨ov, props, rfl, rfl, (Except.ok.inj h).symm⟩

/-- The mean of a nonempty list of values in [0, 100] is in [0, 100]. -/
theorem jsMean_bounds (xs : List ℚ) (hne : xs ≠ [])
    (hb : ∀ x ∈ xs, 0 ≤ x ∧ x ≤ 100) :
    ∃ m, jsMean xs = some m ∧ 0 ≤ m ∧ 0 ≤ m ∧ m ≤ 100 := by
  refine ⟨xs.sum / (xs.length : ℚ), by simp [jsMean, hne], ?_, ?_, ?_⟩
  all_goals
    have hlen : 0 < (xs.length : ℚ) := by
      have : 0 < xs.length := List.length_pos.mpr hne
      exact_mod_cast this
  · exact div_nonneg (List.sum_nonneg fun x hx => (hb x hx).1) hlen.le
  · exact div_nonneg (List.sum_nonneg fun x hx => (hb x hx).1) hlen.le
  · rw [div_le_iff₀ hlen]
    calc xs.sum ≤ xs.length • (100 : ℚ) :=
          List.sum_le_card_nsmul xs 100 fun x hx => (hb x hx).2
    _ = 100 * xs.length := by rw [nsmul_eq_mul]; ring

/-- The sum of a constant-zero list is zero. -/
theorem sum_map_zero {α : Type} (l : List α) :
    (l.map fun _ => (0 : ℚ)).sum = 0 := by
  induction l with
  | nil => rfl
  | cons hd tl ih => simp [ih]

/-- The mean of a nonempty list of zeros is zero. -/
theorem jsMean_zeros {α : Type} (l : List α) (hne : l ≠ []) :
    jsMean (l.map fun _ => (0 : ℚ)) = some 0 := by
  have hne2 : (l.map fun _ => (0 : ℚ)) ≠ [] := by
    simpa using hne
  simp [jsMean, hne2, sum_map_zero]
  exact hne

/-- Rounding a value of [0, 100] to one decimal stays in [0, 100]. -/
theorem jsRound1_bounds (q : ℚ) (h0 : 0 ≤ q) (h1 : q ≤ 100) :
    0 ≤ jsRound1 q ∧ jsRound1 q ≤ 100 := by
  unfold jsRound1 jsRound
  constructor
  · have hfl : (0 : ℤ) ≤ ⌊q * 10 + 1/2⌋ := by
      rw [Int.le_floor]
      push_cast
      linarith
    have : (0 : ℚ) ≤ (⌊q * 10 + 1/2⌋ : ℚ) := by exact_mod_cast hfl
    positivity
  · have hfl : ⌊q * 10 + 1/2⌋ < 1001 := by
      rw [Int.floor_lt]
      push_cast
      linarith
    have hle : ⌊q * 10 + 1/2⌋ ≤ 1000 := by omega
    have : ((⌊q * 10 + 1/2⌋ : ℤ) : ℚ) ≤ 1000 := by exact_mod_cast hle
    linarith

/-- The rounding `Math.round` lands within 1/2 of its argument. -/
theorem jsRound_nearest (m : ℚ) : |(jsRound m : ℚ) - m| ≤ 1/2 := by
  unfold jsRound
  rw [abs_le]
  have h1 : ((⌊m + 1/2⌋ : ℤ) : ℚ) ≤ m + 1/2 := Int.floor_le _
  have h2 : m + 1/2 < (⌊m + 1/2⌋ : ℚ) + 1 := Int.lt_floor_add_one _
  constructor <;> linarith

/-- A category whose merged value is an object yields its values without
throwing. -/
theorem categoryValues_obj (kpis : List (String × CatVal)) (c : String)
    (fs : List (String × ℚ)) (h : kpis.lookup c = some (.obj fs)) :
    categoryValues kpis c = .ok (fs.map Prod.snd) := by
  simp [categoryValues, h]

/-- The scoring loop returns whenever the values of every weighted category can
be read. -/
theorem sumTerms_ok (kpis : List (String × CatVal))
    (ws : List (String × ℚ))
    (h : ∀ cw ∈ ws, ∃ vs, categoryValues kpis cw.1 = .ok vs) :
    ∃ ov, sumTerms kpis ws = .ok ov := by
  induction ws with
  | nil => exact ⟨some 0, rfl⟩
  | cons cw rest ih =>
    obtain ⟨vs, hv⟩ := h cw (List.mem_cons_self cw rest)
    obtain ⟨ov, hov⟩ := ih fun x hx => h x (List.mem_cons_of_mem cw hx)
    exact ⟨nMulAdd cw.2 (jsMean vs) ov, by simp [sumTerms, hv, hov]⟩

/-- The scoring loop only looks at the lookups of the weighted names. -/
theorem sumTerms_congr (k1 k2 : List (String × CatVal))
    (ws : List (String × ℚ))
    (h : ∀ cw ∈ ws, k1.lookup cw.1 = k2.lookup cw.1) :
    sumTerms k1 ws = sumTerms k2 ws := by
  induction ws with
  | nil => rfl
  | cons cw rest ih =>
    have hcv : categoryValues k1 cw.1 = categoryValues k2 cw.1 := by
      unfold categoryValues
      rw [h cw (List.mem_cons_self cw rest)]
    have hrest := ih fun x hx => h x (List.mem_cons_of_mem cw hx)
    simp only [sumTerms, hcv, hrest]

/-- Mapping the proposal callback over non-null entries returns. -/
theorem normalizeEntries_ok (es : List RawProposalEntry)
    (h : ∀ e ∈ es, e ≠ .null) :
    ∃ ps, normalizeEntries es = .ok ps := by
  induction es with
  | nil => exact ⟨[], rfl⟩
  | cons e rest ih =>
    obtain ⟨ps, hps⟩ := ih fun x hx => h x (List.mem_cons_of_mem e hx)
    cases e with
    | null => exact absurd rfl (h _ (List.mem_cons_self _ rest))
    | obj t ti d p =>
      exact ⟨normalizeProposalFields t ti d p :: ps,
        by simp [normalizeEntries, normalizeProposal, hps]⟩

/-- A returning run of the proposal mapping computes the pure per-entry
normalization of each entry. -/
theorem normalizeEntries_ok_eq (es : List RawProposalEntry)
    (ps : List Proposal) (h : normalizeEntries es = .ok ps) :
    ps = es.map normEntry := by
  induction es generalizing ps with
  | nil => simpa [normalizeEntries] using h.symm
  | cons e rest ih =>
    cases e with
    | null => simp [normalizeEntries, normalizeProposal] at h
    | obj t ti d p =>
      simp only [normalizeEntries, normalizeProposal] at h
      cases hr : normalizeEntries rest with
      | error err => rw [hr] at h; exact absurd h (by simp)
      | ok ps2 =>
        rw [hr] at h
        have := (Except.ok.inj h).symm
        subst this
        simp [List.map_cons, normEntry, ih ps2 hr]

/-- Each rubric name has a nonempty sub-criterion list, and its default
category is the matching all-zero object. -/
theorem defaultCat_obj (c : String) (hc : c ∈ rubricNames) :
    ∃ subs, rubric.lookup c = some subs ∧ subs ≠ [] ∧
      defaultCat c = zeroCat subs := by
  have hc2 : c = "call_to_action" ∨ c = "structure_time" ∨
      c = "content_clarity" ∨ c = "memorability" := by
    simpa [rubricNames, rubric] using hc
  rcases hc2 with rfl | rfl | rfl | rfl
  · exact ⟨ctaSubs, rfl, by decide, rfl⟩
  · exact ⟨stSubs, rfl, by decide, rfl⟩
  · exact ⟨ccSubs, rfl, by decide, rfl⟩
  · exact ⟨memSubs, rfl, by decide, rfl⟩

/-- When no rubric category of the raw kpis is null, every weighted
category of the merged kpis can be read without throwing. -/
theorem categoryValues_ok_of_noNull (raw : RawEvaluation)
    (hk : noNullRubricB raw = true) (c : String) (hc : c ∈ rubricNames) :
    ∃ vs, categoryValues (mergedKpis raw) c = .ok vs := by
  have hm := mergedKpis_lookup raw c hc
  cases hinc : (raw.kpis.getD []).lookup c with
  | none =>
    rw [hinc, Option.getD_none] at hm
    obtain ⟨subs, -, -, hdc⟩ := defaultCat_obj c hc
    rw [hdc] at hm
    exact ⟨_, categoryValues_obj _ _ _ (by exact hm)⟩
  | some v =>
    rw [hinc, Option.getD_some] at hm
    cases v with
    | null =>
      exfalso
      unfold noNullRubricB at hk
      have hall := (List.all_eq_true.mp hk) c hc
      rw [hinc] at hall
      simp at hall
    | obj fs =>
      exact ⟨_, categoryValues_obj _ _ _ hm⟩

/-- The values of an all-zero category object are the constant-zero list. -/
theorem map_snd_zero (l : List String) :
    ((l.map fun s => (s, (0 : ℚ))).map Prod.snd) = l.map fun _ => (0 : ℚ) := by
  induction l with
  | nil => rfl
  | cons h t ih => simp only [List.map_cons, ih]

/-- When every present rubric category is a nonempty object of values in
[0, 100], every weighted category of the merged kpis has a mean in
[0, 100]. -/
theorem catMean_bounds (raw : RawEvaluation) (hk : rawKpisOkB raw = true)
    (c : String) (hc : c ∈ rubricNames) :
    ∃ vs m, categoryValues (mergedKpis raw) c = .ok vs ∧
      jsMean vs = some m ∧ 0 ≤ m ∧ m ≤ 100 := by
  have hm := mergedKpis_lookup raw c hc
  unfold rawKpisOkB at hk
  have hall := (List.all_eq_true.mp hk) c hc
  cases hinc : (raw.kpis.getD []).lookup c with
  | none =>
    rw [hinc, Option.getD_none] at hm
    obtain ⟨subs, -, hsne, hdc⟩ := defaultCat_obj c hc
    rw [hdc] at hm
    refine ⟨(subs.map fun s => (s, (0 : ℚ))).map Prod.snd, 0,
      categoryValues_obj _ _ _ (by exact hm), ?_, le_refl 0, by norm_num⟩
    rw [map_snd_zero]
    exact jsMean_zeros subs hsne
  | some v =>
    rw [hinc, Option.getD_some] at hm
    rw [hinc] at hall
    cases v with
    | null => simp at hall
    | obj fs =>
      simp only [Bool.and_eq_true] at hall
      have hne : fs ≠ [] := by
        intro hfs
        rw [hfs] at hall
        simp at hall
      have hbnd : ∀ x ∈ fs.map Prod.snd, 0 ≤ x ∧ x ≤ 100 := by
        intro x hx
        obtain ⟨s, hs, rfl⟩ := List.mem_map.mp hx
        have := (List.all_eq_true.mp hall.2) s hs
        simp only [Bool.and_eq_true, decide_eq_true_eq] at this
        exact this
      have hmapne : fs.map Prod.snd ≠ [] := by simpa using hne
      obtain ⟨m, hmean, h0, -, h100⟩ := jsMean_bounds _ hmapne hbnd
      exact ⟨_, m, categoryValues_obj _ _ _ hm, hmean, h0, h100⟩

/-- The scoring loop over the concrete weights, written out. -/
theorem sumTerms_weights (k : List (String × CatVal))
    (vs1 vs2 vs3 vs4 : List ℚ) (m1 m2 m3 m4 : ℚ)
    (h1 : categoryValues k "call_to_action" = .ok vs1)
    (h2 : categoryValues k "structure_time" = .ok vs2)
    (h3 : categoryValues k "content_clarity" = .ok vs3)
    (h4 : categoryValues k "memorability" = .ok vs4)
    (hm1 : jsMean vs1 = some m1) (hm2 : jsMean vs2 = some m2)
    (hm3 : jsMean vs3 = some m3) (hm4 : jsMean vs4 = some m4) :
    sumTerms k weights =
      .ok (some (m1 * (2/5) + (m2 * (1/4) + (m3 * (1/5) + (m4 * (3/20) + 0))))) := by
  simp [weights, sumTerms, h1, h2, h3, h4, hm1, hm2, hm3, hm4, nMulAdd]

/-- Proposal processing returns whenever the proposals field is absent or
an array whose first three entries are objects. -/
theorem normalizeProposals_ok (pv : Option ProposalsVal)
    (hp : proposalsOkB pv = true) :
    ∃ ps, normalizeProposals pv = .ok ps := by
  match pv with
  | none => exact ⟨[], rfl⟩
  | some .notArray => simp [proposalsOkB] at hp
  | some (.arr es) =>
    apply normalizeEntries_ok
    intro e he
    unfold proposalsOkB at hp
    have := (List.all_eq_true.mp hp) e he
    cases e with
    | null => simp at this
    | obj t ti d p => simp

/-- C1, counterexample: the claim says a present category missing some
rubric sub-criteria gets exactly those defaulted to 0, so the output
always carries every rubric sub-criterion.  On `raw1`, whose
call_to_action has only specific_referral_ask, the run returns and the
output kpis does NOT carry all rubric sub-criteria: the shallow object
spread replaced the default category wholesale. -/
theorem c1_counterexample :
    validateEvaluationResult raw1 = .ok n1 ∧ kpisCompleteB n1.kpis = false :=
  ⟨raw1_eval, by decide⟩

/-- C1, amended: defaulting is per category, not per sub-criterion.  For
every returning run, each rubric category of the output kpis equals the
category object of the caller unchanged when one was supplied (missing rubric
sub-criteria are not added, extra ones are kept), and the all-zero
default category otherwise. -/
theorem c1_amended (raw : RawEvaluation) (n : NormalizedEvaluation)
    (h : validateEvaluationResult raw = .ok n) :
    ∀ c ∈ rubricNames,
      n.kpis.lookup c =
        some (((raw.kpis.getD []).lookup c).getD (defaultCat c)) := by
  obtain ⟨ov, props, -, -, rfl⟩ := validate_ok_elim raw n h
  intro c hc
  exact mergedKpis_lookup raw c hc

/-- C1, witness: the amended statement evaluated on `raw1`. -/
theorem c1_witness :
    n1.kpis.lookup "call_to_action" =
      some (.obj [("specific_referral_ask", 50)]) := by
  have h := c1_amended raw1 n1 raw1_eval "call_to_action" (by decide)
  rw [h]
  decide

/-- C2, counterexample: the claim says normalize returns on every
object-shaped input.  The object-shaped `rawNullCat`, whose
call_to_action is the JSON null value, makes `Object.values` throw a
TypeError inside the scoring loop. -/
theorem c2_counterexample :
    isOkE (validateEvaluationResult rawNullCat) = false := by decide

/-- C2, amended: normalize returns a NormalizedEvaluation on every
object-shaped input in which no rubric category of kpis is null and the
proposals field is absent or an array whose first three entries are
objects; outside that class nested malformed values make it throw. -/
theorem c2_amended (raw : RawEvaluation) (hk : noNullRubricB raw = true)
    (hp : proposalsOkB raw.proposals = true) :
    isOkE (validateEvaluationResult raw) = true := by
  obtain ⟨ov, hov⟩ := sumTerms_ok (mergedKpis raw) weights fun cw hcw =>
    categoryValues_ok_of_noNull raw hk cw.1 (by
      have hcw2 : cw = ("call_to_action", (2 : ℚ)/5) ∨
          cw = ("structure_time", (1 : ℚ)/4) ∨
          cw = ("content_clarity", (1 : ℚ)/5) ∨
          cw = ("memorability", (3 : ℚ)/20) := by
        simpa [weights] using hcw
      rcases hcw2 with rfl | rfl | rfl | rfl <;> decide)
  obtain ⟨ps, hps⟩ := normalizeProposals_ok raw.proposals hp
  unfold validateEvaluationResult
  rw [hov, hps]
  rfl

/-- C2, witness: the amended statement evaluated on the empty object. -/
theorem c2_witness :
    noNullRubricB emptyRaw = true ∧ proposalsOkB emptyRaw.proposals = true ∧
    isOkE (validateEvaluationResult emptyRaw) = true :=
  ⟨by decide, by decide, c2_amended emptyRaw (by decide) (by decide)⟩

/-- C3, counterexample: the claim says every primitive top-level input
raises an explicit invalid-input error.  The primitive 5 is not rejected:
it normalizes to the fully-defaulted result. -/
theorem c3_counterexample : validateTop (.prim (.num 5)) = .ok n0 := n0_eval

/-- C3, amended: null or undefined top-level input throws a TypeError
from property access (the code has no explicit InvalidInputError);
primitive top-level input is not rejected and is processed exactly like
the empty object; and top-level shape is not the only failing class,
since an object with a null rubric category also throws. -/
theorem c3_amended :
    isOkE (validateTop .null) = false ∧
    isOkE (validateTop .undef) = false ∧
    (∀ p : Prim, validateTop (.prim p) = validateEvaluationResult emptyRaw) ∧
    isOkE (validateEvaluationResult rawNullCat) = false :=
  ⟨rfl, rfl, fun _ => rfl, by decide⟩

/-- C3, witness: the amended statement evaluated on a string primitive. -/
theorem c3_witness :
    validateTop (.prim (.str "x")) = validateEvaluationResult emptyRaw :=
  c3_amended.2.2.1 (.str "x")

/-- C4, counterexample: the claim says the one-decimal rounding is
round-half-away-from-zero.  On `raw4` the exact weighted sum is -1/20;
round-half-away-from-zero would give -1/10, but the code
(`Math.round`, half toward positive infinity) returns 0. -/
theorem c4_counterexample :
    sumTerms (mergedKpis raw4) weights = .ok (some (-(1/20))) ∧
    specRound1 (-(1/20)) = -(1/10) ∧
    validateEvaluationResult raw4 = .ok n4 ∧ n4.overall_score = some 0 := by
  refine ⟨?_, ?_, raw4_eval, rfl⟩
  · simp [mergedKpis, spreadMerge, defaultKpis, rubric, raw4, sumTerms,
      categoryValues, weights, List.lookup, jsMean, nMulAdd, zeroCat,
      ctaSubs, stSubs, ccSubs, memSubs]
    norm_num
  · norm_num [specRound1, roundHalfAwayFromZero, Int.floor_eq_iff]

/-- C4, amended: the output overall_score is the exact weighted sum of
the category means of the merged kpis rounded to one decimal by
`Math.round` (round half toward positive infinity), which agrees with
round-half-away-from-zero on all nonnegative values; on the test
vector the result is 409/5 = 81.8. -/
theorem c4_amended (raw : RawEvaluation) (n : NormalizedEvaluation)
    (ov : Option ℚ) (h : validateEvaluationResult raw = .ok n)
    (hs : sumTerms (mergedKpis raw) weights = .ok ov) :
    n.overall_score = nRound1 ov ∧
    ∀ q : ℚ, 0 ≤ q → jsRound1 q = specRound1 q := by
  constructor
  · obtain ⟨ov2, props, hs2, -, rfl⟩ := validate_ok_elim raw n h
    rw [hs2] at hs
    have hov : ov2 = ov := Except.ok.inj hs
    simp [hov]
  · intro q hq
    unfold jsRound1 specRound1 roundHalfAwayFromZero jsRound
    rw [if_pos (by linarith : (0 : ℚ) ≤ q * 10)]

/-- C4, witness: the amended statement evaluated on the spec test
vector, giving overall_score 409/5 = 81.8. -/
theorem c4_witness :
    n81.overall_score = some (409/5) ∧
    jsRound1 (3273/40) = specRound1 (3273/40) := by
  have hsum : sumTerms (mergedKpis raw81) weights = .ok (some (3273/40)) := by
    simp [mergedKpis, spreadMerge, defaultKpis, rubric, raw81, sumTerms,
      categoryValues, weights, List.lookup, jsMean, nMulAdd, zeroCat,
      ctaSubs, stSubs, ccSubs, memSubs]
    norm_num
  obtain ⟨h1, h2⟩ := c4_amended raw81 n81 (some (3273/40)) raw81_eval hsum
  refine ⟨?_, h2 _ (by norm_num)⟩
  rw [h1]
  norm_num [nRound1, jsRound1, jsRound, Int.floor_eq_iff]

/-- C5, counterexample: the claim says overall_score is in [0,100]
whenever every caller-supplied numeric sub-criterion value is.  On
`raw5`, whose call_to_action is a present but empty object, the
hypothesis holds vacuously and overall_score is NaN (0/0), outside
[0,100]. -/
theorem c5_counterexample :
    rawValuesInRangeB raw5 = true ∧
    validateEvaluationResult raw5 = .ok n5 ∧ n5.overall_score = none :=
  ⟨by decide, raw5_eval, rfl⟩

/-- C5, amended: when additionally every present rubric category is a
nonempty object (so no category mean is NaN) with values in [0,100], the
returned overall_score is a number in [0,100]. -/
theorem c5_amended (raw : RawEvaluation) (hk : rawKpisOkB raw = true)
    (n : NormalizedEvaluation) (h : validateEvaluationResult raw = .ok n) :
    ∃ q, n.overall_score = some q ∧ 0 ≤ q ∧ q ≤ 100 := by
  obtain ⟨vs1, m1, h1, hm1, h01, h1001⟩ :=
    catMean_bounds raw hk "call_to_action" (by decide)
  obtain ⟨vs2, m2, h2, hm2, h02, h1002⟩ :=
    catMean_bounds raw hk "structure_time" (by decide)
  obtain ⟨vs3, m3, h3, hm3, h03, h1003⟩ :=
    catMean_bounds raw hk "content_clarity" (by decide)
  obtain ⟨vs4, m4, h4, hm4, h04, h1004⟩ :=
    catMean_bounds raw hk "memorability" (by decide)
  have hsum := sumTerms_weights (mergedKpis raw) vs1 vs2 vs3 vs4 m1 m2 m3 m4
    h1 h2 h3 h4 hm1 hm2 hm3 hm4
  obtain ⟨ov2, props, hs2, -, rfl⟩ := validate_ok_elim raw n h
  rw [hs2] at hsum
  have hov : ov2 = some (m1 * (2/5) + (m2 * (1/4) + (m3 * (1/5) + (m4 * (3/20) + 0)))) :=
    Except.ok.inj hsum
  have h0 : 0 ≤ m1 * (2/5) + (m2 * (1/4) + (m3 * (1/5) + (m4 * (3/20) + 0))) := by
    linarith
  have h100 : m1 * (2/5) + (m2 * (1/4) + (m3 * (1/5) + (m4 * (3/20) + 0))) ≤ 100 := by
    linarith
  obtain ⟨hr0, hr100⟩ := jsRound1_bounds _ h0 h100
  exact ⟨jsRound1 _, by simp [hov, nRound1], hr0, hr100⟩

/-- C5, witness: the amended statement evaluated on the empty object,
whose overall_score is 0. -/
theorem c5_witness :
    rawKpisOkB emptyRaw = true ∧
    ∃ q, n0.overall_score = some q ∧ 0 ≤ q ∧ q ≤ 100 :=
  ⟨by decide, c5_amended emptyRaw (by decide) n0 n0_eval⟩

/-- The default kpis object carries each rubric category. -/
theorem defaultKpis_lookup (c : String) (subs : List String)
    (hrs : rubric.lookup c = some subs) :
    defaultKpis.lookup c = some (zeroCat subs) := by
  have h := lookup_map_keyed rubric (fun _ v => zeroCat v) c
  rw [hrs] at h
  simpa [defaultKpis] using h

/-- Merging an already-merged kpis object again does not change any
rubric category. -/
theorem remerge_lookup (inc : List (String × CatVal)) (c : String)
    (hc : c ∈ rubricNames) :
    (spreadMerge defaultKpis (spreadMerge defaultKpis inc)).lookup c =
      (spreadMerge defaultKpis inc).lookup c := by
  obtain ⟨subs, hrs, -, -⟩ := defaultCat_obj c hc
  have hd := defaultKpis_lookup c subs hrs
  have hA := spreadMerge_lookup_left defaultKpis inc c _ hd
  have hB := spreadMerge_lookup_left defaultKpis (spreadMerge defaultKpis inc) c _ hd
  rw [hB, hA, Option.getD_some]

/-- A proposals array rebuilt from normalized proposals is well formed. -/
theorem proposalsOkB_of_objs (l : List Proposal) :
    proposalsOkB (some (.arr (l.map fun p =>
      RawProposalEntry.obj p.type p.title p.description p.priority))) = true := by
  unfold proposalsOkB
  rw [List.all_eq_true]
  intro e he
  rw [← List.map_take] at he
  obtain ⟨p, -, rfl⟩ := List.mem_map.mp he
  rfl

/-- C6: normalize is idempotent with respect to overall_score: feeding a
output of a returning run back in returns again, with the same
overall_score.  Proved for every returning first run, with no
restriction to outputs free of extra sub-criteria. -/
theorem c6_idempotent (raw : RawEvaluation) (n : NormalizedEvaluation)
    (h : validateEvaluationResult raw = .ok n) :
    ∃ n2, validateEvaluationResult (toRaw n) = .ok n2 ∧
      n2.overall_score = n.overall_score := by
  obtain ⟨ov, props, hs, hp, hn⟩ := validate_ok_elim raw n h
  have hkpis : n.kpis = mergedKpis raw := by rw [hn]
  have hover : n.overall_score = nRound1 ov := by rw [hn]
  have hsum2 : sumTerms (mergedKpis (toRaw n)) weights = .ok ov := by
    have hagree : ∀ cw ∈ weights,
        (mergedKpis (toRaw n)).lookup cw.1 = (mergedKpis raw).lookup cw.1 := by
      intro cw hcw
      have hc1 : cw.1 ∈ rubricNames := by
        have hcw2 : cw = ("call_to_action", (2 : ℚ)/5) ∨
            cw = ("structure_time", (1 : ℚ)/4) ∨
            cw = ("content_clarity", (1 : ℚ)/5) ∨
            cw = ("memorability", (3 : ℚ)/20) := by
          simpa [weights] using hcw
        rcases hcw2 with rfl | rfl | rfl | rfl <;> decide
      have hmk : mergedKpis (toRaw n) =
          spreadMerge defaultKpis (spreadMerge defaultKpis (raw.kpis.getD [])) := by
        unfold mergedKpis toRaw
        simp [hkpis, mergedKpis]
      rw [hmk]
      unfold mergedKpis
      exact remerge_lookup (raw.kpis.getD []) cw.1 hc1
    rw [sumTerms_congr _ _ weights hagree, hs]
  have hpok : proposalsOkB (toRaw n).proposals = true :=
    proposalsOkB_of_objs n.proposals
  obtain ⟨ps2, hps2⟩ := normalizeProposals_ok _ hpok
  refine ⟨{ kpis := mergedKpis (toRaw n), proposals := ps2,
            overall_score := nRound1 ov,
            word_count := jsOr (toRaw n).word_count (.num 0),
            summary := jsOr (toRaw n).summary (.str "Bewertung abgeschlossen") },
    ?_, ?_⟩
  · simp only [validateEvaluationResult, hsum2, hps2]
  · rw [hover]

/-- C6, witness: the empty object normalizes to `n0`; renormalizing `n0`
keeps overall_score. -/
theorem c6_witness :
    ∃ n2, validateEvaluationResult (toRaw n0) = .ok n2 ∧
      n2.overall_score = n0.overall_score :=
  c6_idempotent emptyRaw n0 n0_eval

/-- C7: the normalized proposals are exactly the first min(3, length)
entries of the proposals array in order, each with falsy type, title and
description defaulted, and the priority is kept exactly when it is one
of the strings HIGH, MEDIUM, LOW and coerced to MEDIUM otherwise; an
absent proposals field gives the empty list. -/
theorem c7_proposals (raw : RawEvaluation) (n : NormalizedEvaluation)
    (h : validateEvaluationResult raw = .ok n) :
    (raw.proposals = none → n.proposals = []) ∧
    (∀ ps, raw.proposals = some (.arr ps) →
      n.proposals = (ps.take 3).map normEntry ∧
      n.proposals.length = min 3 ps.length) ∧
    (∀ t ti d p, ((p = .str "HIGH" ∨ p = .str "MEDIUM" ∨ p = .str "LOW") →
        (normalizeProposalFields t ti d p).priority = p) ∧
      (¬(p = .str "HIGH" ∨ p = .str "MEDIUM" ∨ p = .str "LOW") →
        (normalizeProposalFields t ti d p).priority = .str "MEDIUM")) := by
  obtain ⟨ov, props, -, hp, hn⟩ := validate_ok_elim raw n h
  have hprops : n.proposals = props := by rw [hn]
  refine ⟨?_, ?_, ?_⟩
  · intro hnone
    rw [hnone] at hp
    have hpe : props = [] := by simpa [normalizeProposals] using hp.symm
    rw [hprops, hpe]
  · intro ps hps
    rw [hps] at hp
    have heq := normalizeEntries_ok_eq (ps.take 3) props
      (by simpa [normalizeProposals] using hp)
    refine ⟨by rw [hprops, heq], ?_⟩
    rw [hprops, heq]
    simp [List.length_map, List.length_take]
  · intro t ti d p
    constructor
    · intro hmem
      show (if p = .str "HIGH" ∨ p = .str "MEDIUM" ∨ p = .str "LOW"
        then p else .str "MEDIUM") = p
      rw [if_pos hmem]
    · intro hmem
      show (if p = .str "HIGH" ∨ p = .str "MEDIUM" ∨ p = .str "LOW"
        then p else .str "MEDIUM") = .str "MEDIUM"
      rw [if_neg hmem]

/-- C7, witness: a 5-entry proposals array yields exactly 3 normalized
entries; the INVALID and missing priorities become MEDIUM, HIGH is kept. -/
theorem c7_witness :
    n7.proposals.length = 3 ∧
    n7.proposals.map Proposal.priority =
      [.str "MEDIUM", .str "HIGH", .str "MEDIUM"] := by
  have h := (c7_proposals raw7 n7 raw7_eval).2.1 ps7 rfl
  constructor
  · rw [h.2]
    decide
  · rw [h.1]
    decide

/-- C8: an absent word_count becomes 0 and an absent summary becomes the
fixed German placeholder; a numeric word_count and a non-empty string
summary pass through with their value unchanged. -/
theorem c8_defaults (raw : RawEvaluation) (n : NormalizedEvaluation)
    (h : validateEvaluationResult raw = .ok n) :
    (raw.word_count = .undef → n.word_count = .num 0) ∧
    (∀ q : ℚ, raw.word_count = .num q → n.word_count = .num q) ∧
    (raw.summary = .undef → n.summary = .str "Bewertung abgeschlossen") ∧
    (∀ s : String, s ≠ "" → raw.summary = .str s → n.summary = .str s) := by
  obtain ⟨ov, props, -, -, hn⟩ := validate_ok_elim raw n h
  have hw : n.word_count = jsOr raw.word_count (.num 0) := by rw [hn]
  have hsm : n.summary = jsOr raw.summary (.str "Bewertung abgeschlossen") := by
    rw [hn]
  refine ⟨?_, ?_, ?_, ?_⟩
  · intro hu
    rw [hw, hu]
    rfl
  · intro q hq
    rw [hw, hq]
    by_cases h0 : q = 0
    · subst h0
      simp [jsOr, JVal.falsy]
    · simp [jsOr, JVal.falsy, h0]
  · intro hu
    rw [hsm, hu]
    rfl
  · intro s hs hsum
    rw [hsm, hsum]
    simp [jsOr, JVal.falsy, hs]

/-- C8, witness: word_count 105 and summary Guter Pitch pass through;
absent ones default. -/
theorem c8_witness :
    n8.word_count = .num 105 ∧ n8.summary = .str "Guter Pitch" ∧
    n0.word_count = .num 0 ∧ n0.summary = .str "Bewertung abgeschlossen" := by
  obtain ⟨-, h2, -, h4⟩ := c8_defaults raw8 n8 raw8_eval
  obtain ⟨h1, -, h3, -⟩ := c8_defaults emptyRaw n0 n0_eval
  exact ⟨h2 105 rfl, h4 "Guter Pitch" (by decide) rfl, h1 rfl, h3 rfl⟩

/-- C9: defaulting is triggered by falsiness, not only absence: any falsy
word_count or summary (empty string, NaN, 0, null, false) is replaced by
the default and any truthy one of any type passes through; an
empty-string proposal type, title or description is replaced by its
default string. -/
theorem c9_falsy_defaults (raw : RawEvaluation) (n : NormalizedEvaluation)
    (h : validateEvaluationResult raw = .ok n) :
    (raw.word_count.falsy = true → n.word_count = .num 0) ∧
    (raw.word_count.falsy = false → n.word_count = raw.word_count) ∧
    (raw.summary.falsy = true → n.summary = .str "Bewertung abgeschlossen") ∧
    (raw.summary.falsy = false → n.summary = raw.summary) ∧
    (∀ ti d p, (normalizeProposalFields (.str "") ti d p).type =
      .str "GENERAL_IMPROVEMENT") ∧
    (∀ t d p, (normalizeProposalFields t (.str "") d p).title =
      .str "Verbesserung") ∧
    (∀ t ti p, (normalizeProposalFields t ti (.str "") p).description =
      .str "Siehe Bewertungsdetails") := by
  obtain ⟨ov, props, -, -, hn⟩ := validate_ok_elim raw n h
  have hw : n.word_count = jsOr raw.word_count (.num 0) := by rw [hn]
  have hsm : n.summary = jsOr raw.summary (.str "Bewertung abgeschlossen") := by
    rw [hn]
  refine ⟨?_, ?_, ?_, ?_, fun ti d p => rfl, fun t d p => rfl, fun t ti p => rfl⟩
  · intro hf
    rw [hw]
    simp [jsOr, hf]
  · intro hf
    rw [hw]
    simp [jsOr, hf]
  · intro hf
    rw [hsm]
    simp [jsOr, hf]
  · intro hf
    rw [hsm]
    simp [jsOr, hf]

/-- C9, witness: NaN word_count and empty-string summary are defaulted;
a truthy string word_count passes through; an empty-string type is
replaced. -/
theorem c9_witness :
    n9.word_count = .num 0 ∧ n9.summary = .str "Bewertung abgeschlossen" ∧
    n9b.word_count = .str "42" ∧
    (normalizeProposalFields (.str "") (.str "") (.str "") (.str "X")).type =
      .str "GENERAL_IMPROVEMENT" := by
  obtain ⟨h1, -, h3, -, h5, -, -⟩ := c9_falsy_defaults raw9 n9 raw9_eval
  obtain ⟨-, h2b, -, -, -, -, -⟩ := c9_falsy_defaults raw9b n9b raw9b_eval
  exact ⟨h1 (by decide), h3 (by decide), h2b (by decide),
    h5 (.str "") (.str "") (.str "X")⟩

/-- C10: `calculateKPIScores` returns, per category object present in its
input, the integer `Math.round` of the arithmetic mean of that
values of that category, which is within 1/2 of the exact mean. -/
theorem c10_category_scores (kpis : List (String × CatVal)) :
    ∀ (scores : List (String × Option ℤ)),
      calculateKPIScores kpis = .ok scores →
    ∀ (c : String) (fs : List (String × ℚ)),
      kpis.lookup c = some (.obj fs) → fs ≠ [] →
    ∃ m, jsMean (fs.map Prod.snd) = some m ∧
      scores.lookup c = some (some (jsRound m)) ∧
      |(jsRound m : ℚ) - m| ≤ 1/2 := by
  induction kpis with
  | nil =>
    intro scores h c fs hc
    simp [List.lookup] at hc
  | cons kv rest ih =>
    intro scores h c fs hc hne
    obtain ⟨k, v⟩ := kv
    cases v with
    | null => simp [calculateKPIScores] at h
    | obj gs =>
      simp only [calculateKPIScores] at h
      cases hr : calculateKPIScores rest with
      | error e =>
        rw [hr] at h
        exact absurd h (by simp)
      | ok scoresR =>
        rw [hr] at h
        have hsc : scores = (k, (jsMean (gs.map Prod.snd)).map jsRound) :: scoresR :=
          (Except.ok.inj h).symm
        subst hsc
        by_cases hck : c = k
        · subst hck
          have hgs : gs = fs := by
            simp [List.lookup] at hc
            exact hc
          subst hgs
          have hmapne : gs.map Prod.snd ≠ [] := by simpa using hne
          refine ⟨(gs.map Prod.snd).sum / ((gs.map Prod.snd).length : ℚ),
            ?_, ?_, jsRound_nearest _⟩
          · simp [jsMean, hmapne]
          · simp [List.lookup, jsMean, hmapne]
        · have hb : (c == k) = false := by simp [hck]
          simp only [List.lookup, hb] at hc ⊢
          exact ih scoresR hr c fs hc hne

/-- C10, witness: the category of sub-scores 90 and 85 is stored as the
integer 88 = Math.round(87.5). -/
theorem c10_witness :
    ∃ m, jsMean ([("jargon_free_language", (90 : ℚ)),
        ("single_focus_maintenance", 85)].map Prod.snd) = some m ∧
      ([("content_clarity", some (88 : ℤ))]).lookup "content_clarity" =
        some (some (jsRound m)) ∧
      |(jsRound m : ℚ) - m| ≤ 1/2 :=
  c10_category_scores kpis10 [("content_clarity", some 88)] kpis10_eval
    "content_clarity"
    [("jargon_free_language", 90), ("single_focus_maintenance", 85)]
    (by decide) (by decide)

end Pitrain
